import Mathlib

/-!
Verification of the world-client server's shared-state synchronization core
(`server/server.js`): the two-partition sprite registry (active `sprites`,
archived `inactiveSprites`), the `spriteData` update handler with its
ownership check, forward-merge and required-field validation, the
connect-time resurrect/default-sprite logic, and the disconnect-time
archiving.  JSON scalar field values are modelled by `Value`; composite JSON
values (objects/arrays) never occur in the fields the properties below
inspect, and would be unconditionally truthy.  JavaScript objects and Maps
are modelled as insertion-ordered association lists.
-/

namespace WorldServer

/-- A JSON scalar value as carried in sprite fields over socket.io.
JavaScript `===` on these is structural equality; JS truthiness is
`truthy` below. -/
inductive Value where
  | vNull
  | vBool (b : Bool)
  | vNum (n : Int)
  | vStr (s : String)
deriving DecidableEq

/-- JavaScript truthiness of a scalar value: `null`, `false`, `0` and `""`
are falsy, everything else is truthy. -/
def truthy : Value → Bool
  | Value.vNull => false
  | Value.vBool b => b
  | Value.vNum n => decide (n ≠ 0)
  | Value.vStr s => decide (s ≠ "")

section AssocList

variable {α : Type} {β : Type} [DecidableEq α]

/-- Lookup in an insertion-ordered association list (JS object property
access / `Map.get`); `none` models JS `undefined`. -/
def aGet : List (α × β) → α → Option β
  | [], _ => none
  | kv :: rest, k => if kv.1 = k then some kv.2 else aGet rest k

/-- JS `Object.prototype.hasOwnProperty` / `Map.has`. -/
def aHas (l : List (α × β)) (k : α) : Bool := (aGet l k).isSome

/-- JS property assignment / `Map.set`: update the existing entry in place,
else append a new entry at the end. -/
def aSet (l : List (α × β)) (k : α) (v : β) : List (α × β) :=
  if aHas l k then l.map (fun kv => if kv.1 = k then (k, v) else kv)
  else l ++ [(k, v)]

/-- Set every entry of `entries` into `m`, in order (a sequence of
`Map.set` calls, as a JS `forEach` over `entries` performs). -/
def aSetAll (m : List (α × β)) (entries : List (α × β)) : List (α × β) :=
  entries.foldl (fun acc kv => aSet acc kv.1 kv.2) m

/-- The keys of an association list are pairwise distinct.  Holds for every
map the server ever builds. -/
abbrev nodupKeys (l : List (α × β)) : Prop := (l.map Prod.fst).Nodup

end AssocList

/-- A sprite ("hadron"): a JS object, i.e. an insertion-ordered list of
named scalar fields. -/
abbrev Obj := List (String × Value)

/-- A key of the sprite `Map`s: `data.id` may be any JSON value, and
`none` models the JS `undefined` key used when the incoming update has no
`id` field at all. -/
abbrev Key := Option Value

/-- The key under which a user's own player sprite is stored: the
authenticated identity string. -/
def skey (s : String) : Key := some (Value.vStr s)

/-- The two-partition in-memory registry: `sprites` is the active map,
`inactiveSprites` the archived map (server.js lines 77-88). -/
abbrev SpriteMap := List (Key × Obj)

structure ServerState where
  sprites : SpriteMap
  inactiveSprites : SpriteMap
deriving DecidableEq

/-- `sprite.owner === id` (server.js lines 340, 401, 456): the `owner`
field exists and equals the identity string.  A missing `owner` compares
unequal, as JS `undefined === id` is false. -/
def ownerIs (o : Obj) (ident : String) : Bool :=
  decide (aGet o "owner" = some (Value.vStr ident))

/-- `data.id`, the map key an incoming update addresses (server.js 398). -/
def dataKey (data : Obj) : Key := aGet data "id"

/-- server.js 339-344: on connection, move every archived sprite owned by
this user into the active map (`sprites.set(key, sprite)` then
`inactiveSprites.delete(key)` inside a `forEach`). -/
def resurrect (st : ServerState) (ident : String) : ServerState :=
  { sprites :=
      aSetAll st.sprites (st.inactiveSprites.filter (fun kv => ownerIs kv.2 ident)),
    inactiveSprites :=
      st.inactiveSprites.filter (fun kv => !(ownerIs kv.2 ident)) }

/-- server.js 348-355: the fabricated default player sprite. -/
def defaultSprite (ident : String) : Obj :=
  [("id", Value.vStr ident), ("owner", Value.vStr ident),
   ("x", Value.vNum 0), ("y", Value.vNum 0),
   ("scene", Value.vStr "LoruleH8"), ("sprite", Value.vStr "bloomby")]

/-- server.js 346-356: `if (!sprites.get(id)) sprites.set(id, {...})`.
Map values are always objects, hence truthy, so the JS `!` test is
exactly "no entry present". -/
def ensureDefault (m : SpriteMap) (ident : String) : SpriteMap :=
  if aGet m (skey ident) = none then aSet m (skey ident) (defaultSprite ident)
  else m

/-- The full connection-time registry work for an authenticated identity:
resurrect archived sprites, then fabricate the default player sprite if
needed (server.js 338-356). -/
def connect (st : ServerState) (ident : String) : ServerState :=
  let st1 := resurrect st ident
  { st1 with sprites := ensureDefault st1.sprites ident }

/-- server.js 398-401: the ownership gate.  The update proceeds iff no
active sprite exists under `data.id`, or the existing one is owned by the
sender. -/
def updateAllowed (sprites : SpriteMap) (ident : String) (data : Obj) : Bool :=
  match aGet sprites (dataKey data) with
  | none => true
  | some existingSprite =>
      decide (aGet existingSprite "owner" = some (Value.vStr ident))

/-- server.js 405-411: `for (const key in existingSprite) if
(!newSpriteData.hasOwnProperty(key)) newSpriteData[key] =
existingSprite[key]` — copy forward every existing field absent from the
incoming update. -/
def mergeForward (base ex : Obj) : Obj :=
  ex.foldl (fun b kv => if aHas b kv.1 then b else aSet b kv.1 kv.2) base

/-- server.js 402-414: the merged object an update produces — spread of the
incoming data, forward-merged with the existing sprite (if any), then
`newSpriteData.owner = id` forced. -/
def mergedOf (sprites : SpriteMap) (ident : String) (data : Obj) : Obj :=
  let afterCopy :=
    match aGet sprites (dataKey data) with
    | some existingSprite => mergeForward data existingSprite
    | none => data
  aSet afterCopy "owner" (Value.vStr ident)

/-- JS truthiness of a property access: missing fields are `undefined`,
which is falsy. -/
def truthyField (o : Obj) (k : String) : Bool :=
  match aGet o k with
  | some v => truthy v
  | none => false

/-- server.js 418-423: `newSpriteData.x && newSpriteData.y &&
newSpriteData.scene && newSpriteData.sprite`. -/
def requiredOk (o : Obj) : Bool :=
  truthyField o "x" && truthyField o "y" &&
    truthyField o "scene" && truthyField o "sprite"

/-- Audience of an emitted `sprites` message: `socket.broadcast.emit`
reaches every connected session except the sender, `socket.emit` reaches
the sender. -/
inductive Aud where
  | others
  | sender
deriving DecidableEq

/-- Observable outcome of one `spriteData` event: the new registry state,
whether `sprites.set` executed, and the emitted `sprites` messages (each
carries the serialized active map; serialization is modelled by its
content). -/
structure SpriteDataResult where
  state : ServerState
  stored : Bool
  emits : List (Aud × SpriteMap)
deriving DecidableEq

/-- server.js 377-440: the `spriteData` handler.  If the ownership gate
passes, forward-merge, force the owner, store iff the four required fields
are truthy, and emit the (possibly unchanged) active map both to all other
sessions and back to the sender.  If the gate fails, do nothing at all. -/
def handleSpriteData (st : ServerState) (ident : String) (data : Obj) :
    SpriteDataResult :=
  if updateAllowed st.sprites ident data then
    let merged := mergedOf st.sprites ident data
    let stored := requiredOk merged
    let sprites2 :=
      if stored then aSet st.sprites (dataKey data) merged else st.sprites
    { state := { st with sprites := sprites2 },
      stored := stored,
      emits := [(Aud.others, sprites2), (Aud.sender, sprites2)] }
  else
    { state := st, stored := false, emits := [] }

/-- server.js 454-460: on disconnect, move every active sprite owned by
this user into the archived map. -/
def disconnectOp (st : ServerState) (ident : String) : ServerState :=
  { sprites := st.sprites.filter (fun kv => !(ownerIs kv.2 ident)),
    inactiveSprites :=
      aSetAll st.inactiveSprites
        (st.sprites.filter (fun kv => ownerIs kv.2 ident)) }

/-- The serialized view broadcast to clients: the active partition only
(server.js 358-361, 430-438, 461-464 all stringify `sprites`). -/
def snapshot (st : ServerState) : SpriteMap := st.sprites

/-- The three registry-mutating events a session can cause. -/
inductive Op where
  | connect (ident : String)
  | spriteData (ident : String) (data : Obj)
  | disconnect (ident : String)

def applyOp (st : ServerState) : Op → ServerState
  | Op.connect i => connect st i
  | Op.spriteData i d => (handleSpriteData st i d).state
  | Op.disconnect i => disconnectOp st i

def runOps (st : ServerState) (ops : List Op) : ServerState :=
  ops.foldl applyOp st

/-- Fresh-server state: empty active map, empty archived map (the
no-saved-file startup case). -/
def initialState : ServerState := { sprites := [], inactiveSprites := [] }

/-- Which payloads a connected session receives from the handler's
emissions, depending on whether it is the sender: `broadcast` messages
reach every non-sender, plain `emit` messages reach the sender. -/
def receivedBy (r : SpriteDataResult) (isSender : Bool) : List SpriteMap :=
  r.emits.filterMap (fun e =>
    match e.1, isSender with
    | Aud.sender, true => some e.2
    | Aud.others, false => some e.2
    | _, _ => none)

/-- No id is present in both partitions (every active entry's key is
absent from the archived map). -/
abbrev DisjointParts (st : ServerState) : Prop :=
  ∀ kv ∈ st.sprites, aGet st.inactiveSprites kv.1 = none

/-- A well-formed update per the spec: the four required fields are
present and non-null. -/
abbrev wellFormed (data : Obj) : Prop :=
  ∀ f ∈ ["x", "y", "scene", "sprite"],
    aGet data f ≠ none ∧ aGet data f ≠ some Value.vNull

/-- The merged object has all four required fields truthy. -/
abbrev requiredTruthy (o : Obj) : Prop :=
  ∀ f ∈ ["x", "y", "scene", "sprite"], truthyField o f = true

/-- The persisted sprites file at startup: absent, present but
unparseable, or present and well-formed with content `m`. -/
inductive SpritesFile where
  | absent
  | corrupt
  | wellFormed (m : SpriteMap)

/-- Modelled from the spec: `persistentData.readMap` (persistentData.js is
not under src/; only its caller is).  "load() returns the previously
persisted object mapping (or an empty one if no file exists yet — this is
not an error); a corrupt/unparseable file IS a fatal startup error." -/
def readMap : SpritesFile → Except Unit SpriteMap
  | SpritesFile.absent => Except.ok []
  | SpritesFile.corrupt => Except.error ()
  | SpritesFile.wellFormed m => Except.ok m

/-- server.js 79-88: the startup load of the sprite mapping.  `none`
models `process.exit(1)` — the process aborts and no state is used. -/
def startupLoad (f : SpritesFile) : Option SpriteMap :=
  match readMap f with
  | Except.ok m => some m
  | Except.error _ => none

/-! ## Association-list lemmas -/

section AssocLemmas

variable {α : Type} {β : Type} [DecidableEq α]

theorem aGet_cons (kv : α × β) (rest : List (α × β)) (k : α) :
    aGet (kv :: rest) k = if kv.1 = k then some kv.2 else aGet rest k := rfl

theorem mem_of_aGet_eq_some {l : List (α × β)} {k : α} {v : β}
    (h : aGet l k = some v) : (k, v) ∈ l := by
  induction l with
  | nil => simp [aGet] at h
  | cons kv rest ih =>
      rw [aGet_cons] at h
      by_cases hk : kv.1 = k
      · simp [hk] at h
        subst hk
        subst h
        exact List.mem_cons_self _ _
      · simp [hk] at h
        exact List.mem_cons_of_mem _ (ih h)

theorem aGet_isSome_of_mem {l : List (α × β)} {k : α} {v : β}
    (h : (k, v) ∈ l) : (aGet l k).isSome = true := by
  induction l with
  | nil => simp at h
  | cons kv rest ih =>
      rw [aGet_cons]
      rcases List.mem_cons.mp h with h1 | h1
      · subst h1; simp
      · by_cases hk : kv.1 = k
        · simp [hk]
        · simp [hk]; exact ih h1

theorem aGet_eq_none_iff {l : List (α × β)} {k : α} :
    aGet l k = none ↔ k ∉ l.map Prod.fst := by
  induction l with
  | nil => simp [aGet]
  | cons kv rest ih =>
      rw [aGet_cons]
      by_cases hk : kv.1 = k
      · simp [hk]
      · simp [hk, ih, Ne.symm hk]

theorem aGet_append (l1 l2 : List (α × β)) (k : α) :
    aGet (l1 ++ l2) k = (aGet l1 k).orElse (fun _ => aGet l2 k) := by
  induction l1 with
  | nil => simp [aGet]
  | cons kv rest ih =>
      by_cases hk : kv.1 = k
      · simp [aGet_cons, hk]
      · simp [aGet_cons, hk, ih]

theorem aGet_replace (l : List (α × β)) (k : α) (v : β) :
    aGet (l.map (fun kv => if kv.1 = k then (k, v) else kv)) k
      = if aHas l k then some v else none := by
  induction l with
  | nil => simp [aGet, aHas]
  | cons kv rest ih =>
      by_cases hk : kv.1 = k
      · simp [aGet_cons, aHas, hk]
      · have hh : aHas (kv :: rest) k = aHas rest k := by
          simp [aHas, aGet_cons, hk]
        rw [List.map_cons, if_neg hk, aGet_cons, if_neg hk, ih, hh]

theorem aGet_replace_ne (l : List (α × β)) (k : α) (v : β) {k2 : α}
    (h : k2 ≠ k) :
    aGet (l.map (fun kv => if kv.1 = k then (k, v) else kv)) k2
      = aGet l k2 := by
  induction l with
  | nil => simp [aGet]
  | cons kv rest ih =>
      by_cases hk : kv.1 = k
      · rw [List.map_cons, if_pos hk, aGet_cons, aGet_cons]
        rw [if_neg (fun hh => h hh.symm), if_neg (fun hh => h (hk ▸ hh).symm)]
        exact ih
      · rw [List.map_cons, if_neg hk, aGet_cons, aGet_cons]
        by_cases hk2 : kv.1 = k2
        · rw [if_pos hk2, if_pos hk2]
        · rw [if_neg hk2, if_neg hk2]; exact ih

theorem aGet_aSet_self (l : List (α × β)) (k : α) (v : β) :
    aGet (aSet l k v) k = some v := by
  unfold aSet
  by_cases h : aHas l k = true
  · rw [if_pos h, aGet_replace, if_pos h]
  · have hnone : aGet l k = none := by
      rcases hh : aGet l k with _ | w
      · rfl
      · exact absurd (by simp [aHas, hh]) h
    rw [if_neg h, aGet_append, hnone]
    simp [aGet, Option.orElse]

theorem aGet_aSet_ne (l : List (α × β)) (k : α) (v : β) {k2 : α}
    (h : k2 ≠ k) : aGet (aSet l k v) k2 = aGet l k2 := by
  unfold aSet
  by_cases hh : aHas l k = true
  · rw [if_pos hh]
    exact aGet_replace_ne _ _ _ h
  · rw [if_neg hh, aGet_append]
    have h2 : aGet [(k, v)] k2 = none := by simp [aGet, Ne.symm h]
    rw [h2]
    rcases hg : aGet l k2 with _ | w <;> simp [Option.orElse]

theorem aGet_aSet_isSome {l : List (α × β)} {k k2 : α} {v : β}
    (h : (aGet (aSet l k v) k2).isSome = true) :
    k2 = k ∨ (aGet l k2).isSome = true := by
  by_cases hk : k2 = k
  · exact Or.inl hk
  · rw [aGet_aSet_ne _ _ _ hk] at h
    exact Or.inr h

theorem keys_aSet (l : List (α × β)) (k : α) (v : β) :
    (aSet l k v).map Prod.fst
      = if aHas l k then l.map Prod.fst else l.map Prod.fst ++ [k] := by
  unfold aSet
  by_cases h : aHas l k
  · simp only [h, if_true, List.map_map]
    congr 1
    funext kv
    by_cases hk : kv.1 = k <;> simp [hk]
  · simp [h]

theorem nodupKeys_aSet {l : List (α × β)} (k : α) (v : β)
    (h : nodupKeys l) : nodupKeys (aSet l k v) := by
  unfold nodupKeys
  rw [keys_aSet]
  by_cases hh : aHas l k = true
  · rw [if_pos hh]
    exact h
  · have hk : k ∉ l.map Prod.fst := by
      rw [← aGet_eq_none_iff]
      rcases hg : aGet l k with _ | w
      · rfl
      · exact absurd (by simp [aHas, hg]) hh
    rw [if_neg hh, List.nodup_append]
    refine ⟨h, List.nodup_singleton _, ?_⟩
    intro a ha hb
    simp only [List.mem_singleton] at hb
    exact hk (hb ▸ ha)

theorem aGet_aSetAll_of_not_mem_keys {entries : List (α × β)}
    {k : α} (h : k ∉ entries.map Prod.fst) (m : List (α × β)) :
    aGet (aSetAll m entries) k = aGet m k := by
  induction entries generalizing m with
  | nil => rfl
  | cons kv rest ih =>
      simp only [List.map_cons, List.mem_cons] at h
      push_neg at h
      unfold aSetAll at ih ⊢
      simp only [List.foldl_cons]
      rw [ih h.2]
      exact aGet_aSet_ne _ _ _ h.1

theorem aGet_aSetAll_of_mem {entries : List (α × β)} {k : α} {v : β}
    (hnd : nodupKeys entries) (h : (k, v) ∈ entries) (m : List (α × β)) :
    aGet (aSetAll m entries) k = some v := by
  induction entries generalizing m with
  | nil => simp at h
  | cons kv rest ih =>
      unfold nodupKeys at hnd
      simp only [List.map_cons, List.nodup_cons] at hnd
      unfold aSetAll
      simp only [List.foldl_cons]
      rcases List.mem_cons.mp h with h1 | h1
      · have hk : kv.1 = k := by rw [← h1]
        have hrest : k ∉ rest.map Prod.fst := hk ▸ hnd.1
        have := aGet_aSetAll_of_not_mem_keys hrest (aSet m kv.1 kv.2)
        unfold aSetAll at this
        rw [this, hk, ← h1, aGet_aSet_self]
      · exact ih hnd.2 h1 _

theorem aGet_aSetAll_isSome {entries m : List (α × β)} {k : α}
    (h : (aGet (aSetAll m entries) k).isSome = true) :
    (aGet m k).isSome = true ∨ k ∈ entries.map Prod.fst := by
  by_cases hk : k ∈ entries.map Prod.fst
  · exact Or.inr hk
  · rw [aGet_aSetAll_of_not_mem_keys hk] at h
    exact Or.inl h

theorem nodupKeys_aSetAll {m entries : List (α × β)}
    (h : nodupKeys m) : nodupKeys (aSetAll m entries) := by
  induction entries generalizing m with
  | nil => exact h
  | cons kv rest ih =>
      unfold aSetAll
      simp only [List.foldl_cons]
      exact ih (nodupKeys_aSet _ _ h)

theorem aGet_filter_eq_none {l : List (α × β)} {p : α × β → Bool} {k : α}
    (h : ∀ v, (k, v) ∈ l → p (k, v) = false) :
    aGet (l.filter p) k = none := by
  induction l with
  | nil => simp [aGet]
  | cons kv rest ih =>
      obtain ⟨k1, v1⟩ := kv
      have hrest : ∀ v, (k, v) ∈ rest → p (k, v) = false :=
        fun v hv => h v (List.mem_cons_of_mem _ hv)
      rcases hp : p (k1, v1) with _ | _
      · have hf : List.filter p ((k1, v1) :: rest) = List.filter p rest := by
          simp [List.filter_cons, hp]
        rw [hf]
        exact ih hrest
      · have hk : k1 ≠ k := by
          intro hh
          subst hh
          have h2 := h v1 (List.mem_cons_self _ _)
          rw [h2] at hp
          cases hp
        have hf : List.filter p ((k1, v1) :: rest)
            = (k1, v1) :: List.filter p rest := by
          simp [List.filter_cons, hp]
        rw [hf, aGet_cons, if_neg hk]
        exact ih hrest

theorem aGet_filter_eq_none_of_none {l : List (α × β)} {p : α × β → Bool}
    {k : α} (h : aGet l k = none) : aGet (l.filter p) k = none := by
  rw [aGet_eq_none_iff] at h ⊢
  intro hmem
  exact h (by
    rcases List.mem_map.mp hmem with ⟨kv, hkv, hfst⟩
    exact List.mem_map.mpr ⟨kv, List.mem_of_mem_filter hkv, hfst⟩)

theorem aGet_filter_isSome {l : List (α × β)} {p : α × β → Bool} {k : α}
    (h : (aGet (l.filter p) k).isSome = true) :
    (aGet l k).isSome = true := by
  rcases hg : aGet l k with _ | w
  · rw [aGet_filter_eq_none_of_none hg] at h
    simp at h
  · rfl

theorem aGet_of_mem_nodup {l : List (α × β)} {k : α} {v : β}
    (hnd : nodupKeys l) (h : (k, v) ∈ l) : aGet l k = some v := by
  induction l with
  | nil => simp at h
  | cons kv rest ih =>
      unfold nodupKeys at hnd
      simp only [List.map_cons, List.nodup_cons] at hnd
      rw [aGet_cons]
      rcases List.mem_cons.mp h with h1 | h1
      · rw [← h1]; simp
      · have hk : kv.1 ≠ k := by
          intro hh
          exact hnd.1 (hh ▸ List.mem_map.mpr ⟨(k, v), h1, rfl⟩)
        rw [if_neg hk]
        exact ih hnd.2 h1

theorem aGet_filter_of_some {l : List (α × β)} {p : α × β → Bool} {k : α}
    {v : β} (hnd : nodupKeys l) (h : aGet l k = some v) :
    aGet (l.filter p) k = if p (k, v) then some v else none := by
  have hmem : (k, v) ∈ l := mem_of_aGet_eq_some h
  rcases hp : p (k, v) with _ | _
  · rw [if_neg (by simp)]
    apply aGet_filter_eq_none
    intro w hw
    have : w = v := by
      have h1 := aGet_of_mem_nodup hnd hw
      rw [h] at h1
      exact (Option.some_inj.mp h1).symm
    rw [this, hp]
  · rw [if_pos rfl]
    apply aGet_of_mem_nodup
    · exact List.Nodup.sublist (List.Sublist.map Prod.fst (List.filter_sublist l)) hnd
    · exact List.mem_filter.mpr ⟨hmem, hp⟩

omit [DecidableEq α] in
theorem nodupKeys_filter {l : List (α × β)} {p : α × β → Bool}
    (h : nodupKeys l) : nodupKeys (l.filter p) :=
  List.Nodup.sublist (List.Sublist.map Prod.fst (List.filter_sublist l)) h

theorem exists_mem_of_aGet_filter_isSome {l : List (α × β)}
    {p : α × β → Bool} {k : α}
    (h : (aGet (l.filter p) k).isSome = true) :
    ∃ v, (k, v) ∈ l ∧ p (k, v) = true := by
  rcases Option.isSome_iff_exists.mp h with ⟨v, hv⟩
  have hmem := mem_of_aGet_eq_some hv
  have := List.mem_filter.mp hmem
  exact ⟨v, this.1, this.2⟩

end AssocLemmas

/-! ## Handler-shape lemmas -/

/-- The active map after a gate-passing `spriteData` event: the merged
object is stored iff the required fields are truthy. -/
def spritesAfter (st : ServerState) (ident : String) (data : Obj) : SpriteMap :=
  if requiredOk (mergedOf st.sprites ident data)
  then aSet st.sprites (dataKey data) (mergedOf st.sprites ident data)
  else st.sprites

theorem handleSpriteData_allowed {st : ServerState} {ident : String}
    {data : Obj} (h : updateAllowed st.sprites ident data = true) :
    handleSpriteData st ident data =
      SpriteDataResult.mk
        (ServerState.mk (spritesAfter st ident data) st.inactiveSprites)
        (requiredOk (mergedOf st.sprites ident data))
        [(Aud.others, spritesAfter st ident data),
         (Aud.sender, spritesAfter st ident data)] := by
  unfold handleSpriteData
  rw [if_pos h]
  rfl

theorem handleSpriteData_denied {st : ServerState} {ident : String}
    {data : Obj} (h : updateAllowed st.sprites ident data = false) :
    handleSpriteData st ident data =
      SpriteDataResult.mk st false [] := by
  unfold handleSpriteData
  rw [if_neg (by simp [h])]

theorem spritesAfter_stored {st : ServerState} {ident : String} {data : Obj}
    (hR : requiredOk (mergedOf st.sprites ident data) = true) :
    spritesAfter st ident data
      = aSet st.sprites (dataKey data) (mergedOf st.sprites ident data) := by
  unfold spritesAfter
  rw [hR]
  simp

theorem spritesAfter_discarded {st : ServerState} {ident : String}
    {data : Obj} (hR : requiredOk (mergedOf st.sprites ident data) = false) :
    spritesAfter st ident data = st.sprites := by
  unfold spritesAfter
  rw [hR]
  simp

theorem handleSpriteData_stored {st : ServerState} {ident : String}
    {data : Obj} (hU : updateAllowed st.sprites ident data = true)
    (hR : requiredOk (mergedOf st.sprites ident data) = true) :
    handleSpriteData st ident data =
      SpriteDataResult.mk
        (ServerState.mk
          (aSet st.sprites (dataKey data) (mergedOf st.sprites ident data))
          st.inactiveSprites)
        true
        [(Aud.others,
          aSet st.sprites (dataKey data) (mergedOf st.sprites ident data)),
         (Aud.sender,
          aSet st.sprites (dataKey data) (mergedOf st.sprites ident data))] := by
  rw [handleSpriteData_allowed hU, hR, spritesAfter_stored hR]

theorem handleSpriteData_discarded {st : ServerState} {ident : String}
    {data : Obj} (hU : updateAllowed st.sprites ident data = true)
    (hR : requiredOk (mergedOf st.sprites ident data) = false) :
    handleSpriteData st ident data =
      SpriteDataResult.mk st false
        [(Aud.others, st.sprites), (Aud.sender, st.sprites)] := by
  rw [handleSpriteData_allowed hU, hR, spritesAfter_discarded hR]

theorem stored_imp {st : ServerState} {ident : String} {data : Obj}
    (h : (handleSpriteData st ident data).stored = true) :
    updateAllowed st.sprites ident data = true
      ∧ requiredOk (mergedOf st.sprites ident data) = true := by
  by_cases hU : updateAllowed st.sprites ident data = true
  · rw [handleSpriteData_allowed hU] at h
    exact ⟨hU, h⟩
  · rw [handleSpriteData_denied (by simpa using hU)] at h
    cases h

theorem mergedOf_owner (sprites : SpriteMap) (ident : String) (data : Obj) :
    aGet (mergedOf sprites ident data) "owner" = some (Value.vStr ident) :=
  aGet_aSet_self _ _ _

theorem requiredOk_iff (o : Obj) : requiredOk o = true ↔ requiredTruthy o := by
  unfold requiredOk requiredTruthy
  simp [Bool.and_eq_true, List.forall_mem_cons, and_assoc]

theorem requiredOk_eq_false_of_not {o : Obj} (h : ¬ requiredTruthy o) :
    requiredOk o = false := by
  rcases hr : requiredOk o with _ | _
  · rfl
  · exact absurd ((requiredOk_iff o).mp hr) h

theorem updateAllowed_of_owner {st : ServerState} {ident : String} {data : Obj}
    (h : ∀ ex, aGet st.sprites (dataKey data) = some ex →
        aGet ex "owner" = some (Value.vStr ident)) :
    updateAllowed st.sprites ident data = true := by
  unfold updateAllowed
  rcases hget : aGet st.sprites (dataKey data) with _ | ex
  · rfl
  · simp [h ex hget]

theorem updateAllowed_of_other_owner {st : ServerState} {ident : String}
    {data ex : Obj} (hget : aGet st.sprites (dataKey data) = some ex)
    (hne : aGet ex "owner" ≠ some (Value.vStr ident)) :
    updateAllowed st.sprites ident data = false := by
  unfold updateAllowed
  rw [hget]
  simpa using hne

theorem aGet_mergeForward (base ex : Obj) (f : String) :
    aGet (mergeForward base ex) f
      = (aGet base f).orElse (fun _ => aGet ex f) := by
  induction ex generalizing base with
  | nil =>
      show aGet base f = (aGet base f).orElse (fun _ => aGet ([] : Obj) f)
      rcases h : aGet base f with _ | w <;> simp [aGet, Option.orElse]
  | cons kv rest ih =>
      obtain ⟨k1, v1⟩ := kv
      unfold mergeForward at ih ⊢
      simp only [List.foldl_cons]
      by_cases hh : aHas base k1 = true
      · rw [if_pos hh, ih]
        by_cases hf : k1 = f
        · subst hf
          unfold aHas at hh
          rcases Option.isSome_iff_exists.mp hh with ⟨w, hw⟩
          rw [hw, aGet_cons]
          simp [Option.orElse]
        · rw [aGet_cons, if_neg hf]
      · rw [if_neg hh, ih]
        have hbn : aGet base k1 = none := by
          rcases hg : aGet base k1 with _ | w
          · rfl
          · exact absurd (by simp [aHas, hg]) hh
        by_cases hf : k1 = f
        · subst hf
          rw [aGet_aSet_self, hbn, aGet_cons, if_pos rfl]
          simp [Option.orElse]
        · rw [aGet_aSet_ne _ _ _ (fun hh2 => hf hh2.symm), aGet_cons, if_neg hf]

/-! ## Concrete fixtures for witnesses and counterexamples -/

/-- A stored sprite owned by identity A (the spec's forward-merge example). -/
def exObj : Obj :=
  [("id", Value.vNum 1), ("owner", Value.vStr "A"),
   ("x", Value.vNum 5), ("y", Value.vNum 5),
   ("scene", Value.vStr "S"), ("sprite", Value.vStr "P"),
   ("hp", Value.vNum 10)]

/-- A state whose active partition holds `exObj` under key `1`. -/
def exState : ServerState := ServerState.mk [(some (Value.vNum 1), exObj)] []

/-- An update from A that tries to set `owner` to B. -/
def spoofData : Obj :=
  [("id", Value.vNum 1), ("x", Value.vNum 6), ("owner", Value.vStr "B")]

/-- The spec's sparse movement delta for `exObj`. -/
def sparseData : Obj := [("id", Value.vNum 1), ("x", Value.vNum 6)]

/-! ## Claims -/

/-- C9: at startup, loading the persisted sprite mapping yields the empty
mapping when no file exists (not an error), the process aborts when the
file exists but is corrupt, and a parseable file is recovered whole — no
partially recovered state is ever used. -/
theorem spec_C9 :
    startupLoad SpritesFile.absent = some []
    ∧ startupLoad SpritesFile.corrupt = none
    ∧ ∀ m : SpriteMap, startupLoad (SpritesFile.wellFormed m) = some m :=
  ⟨rfl, rfl, fun _ => rfl⟩

/-- C2: the merged object produced by any object-update always carries
`owner = identity` of the sending session, whatever `owner` the client
included; when the update is accepted, that merged object is exactly what
is stored under `data.id`. -/
theorem spec_C2 (st : ServerState) (ident : String) (data : Obj) :
    aGet (mergedOf st.sprites ident data) "owner" = some (Value.vStr ident)
    ∧ ((handleSpriteData st ident data).stored = true →
        aGet (handleSpriteData st ident data).state.sprites (dataKey data)
          = some (mergedOf st.sprites ident data)) := by
  refine ⟨mergedOf_owner _ _ _, ?_⟩
  intro h
  obtain ⟨hU, hR⟩ := stored_imp h
  rw [handleSpriteData_stored hU hR]
  exact aGet_aSet_self _ _ _

theorem spec_C2_witness :
    aGet (mergedOf exState.sprites "A" spoofData) "owner"
      = some (Value.vStr "A")
    ∧ aGet (handleSpriteData exState "A" spoofData).state.sprites
        (dataKey spoofData)
      = some (mergedOf exState.sprites "A" spoofData) :=
  ⟨(spec_C2 exState "A" spoofData).1,
   (spec_C2 exState "A" spoofData).2 (by decide)⟩

/-- C7: on authentication of identity u, after resurrecting u's archived
sprites, a default object with exactly the fields `{id:u, owner:u, x:0,
y:0, scene:"LoruleH8", sprite:"bloomby"}` is created in the active
partition iff no active object keyed by u exists; an existing one is left
unchanged and no default is created. -/
theorem spec_C7 (st : ServerState) (u : String) :
    (aGet (resurrect st u).sprites (skey u) = none →
      (connect st u).sprites
          = aSet (resurrect st u).sprites (skey u) (defaultSprite u)
        ∧ aGet (connect st u).sprites (skey u) = some (defaultSprite u))
    ∧ (∀ o, aGet (resurrect st u).sprites (skey u) = some o →
      (connect st u).sprites = (resurrect st u).sprites
        ∧ aGet (connect st u).sprites (skey u) = some o) := by
  have hc : (connect st u).sprites = ensureDefault (resurrect st u).sprites u :=
    rfl
  constructor
  · intro h
    constructor
    · rw [hc]
      unfold ensureDefault
      rw [if_pos h]
    · rw [hc]
      unfold ensureDefault
      rw [if_pos h]
      exact aGet_aSet_self _ _ _
  · intro o h
    constructor
    · rw [hc]
      unfold ensureDefault
      rw [if_neg (by simp [h])]
    · rw [hc]
      unfold ensureDefault
      rw [if_neg (by simp [h])]
      exact h

/-- A state whose active partition already holds a player sprite for u7. -/
def w7Obj : Obj :=
  [("id", Value.vStr "u7"), ("owner", Value.vStr "u7"),
   ("x", Value.vNum 3), ("y", Value.vNum 4),
   ("scene", Value.vStr "S"), ("sprite", Value.vStr "P")]

def w7State : ServerState := ServerState.mk [(skey "u7", w7Obj)] []

theorem spec_C7_witness :
    ((connect initialState "u0").sprites
        = aSet (resurrect initialState "u0").sprites (skey "u0")
            (defaultSprite "u0")
      ∧ aGet (connect initialState "u0").sprites (skey "u0")
          = some (defaultSprite "u0"))
    ∧ ((connect w7State "u7").sprites = (resurrect w7State "u7").sprites
      ∧ aGet (connect w7State "u7").sprites (skey "u7") = some w7Obj) :=
  ⟨(spec_C7 initialState "u0").1 (by decide),
   (spec_C7 w7State "u7").2 w7Obj (by decide)⟩

/-- C8: after every accepted object-update, every connected session —
whether or not it is the sender — receives exactly one `sprites` message
whose payload is the active partition of the new state; the archived map
is untouched, and an id present only in the archived partition appears in
no emitted payload. -/
theorem spec_C8 (st : ServerState) (ident : String) (data : Obj)
    (h : (handleSpriteData st ident data).stored = true) :
    (∀ isSender : Bool,
        receivedBy (handleSpriteData st ident data) isSender
          = [(handleSpriteData st ident data).state.sprites])
    ∧ (handleSpriteData st ident data).state.inactiveSprites
        = st.inactiveSprites
    ∧ (∀ kv ∈ (handleSpriteData st ident data).state.inactiveSprites,
        aGet (handleSpriteData st ident data).state.sprites kv.1 = none →
        ∀ e ∈ (handleSpriteData st ident data).emits, aGet e.2 kv.1 = none) := by
  obtain ⟨hU, hR⟩ := stored_imp h
  rw [handleSpriteData_stored hU hR]
  refine ⟨?_, rfl, ?_⟩
  · intro isSender
    cases isSender <;> rfl
  · intro kv _ hnone e he
    rcases List.mem_cons.mp he with h1 | h1
    · rw [h1]
      exact hnone
    · rcases List.mem_cons.mp h1 with h2 | h2
      · rw [h2]
        exact hnone
      · simp at h2

/-- A complete well-formed update for a fresh id. -/
def w8Data : Obj :=
  [("id", Value.vStr "w8"), ("x", Value.vNum 1), ("y", Value.vNum 1),
   ("scene", Value.vStr "s"), ("sprite", Value.vStr "p")]

theorem spec_C8_witness :
    receivedBy (handleSpriteData initialState "A" w8Data) true
      = [(handleSpriteData initialState "A" w8Data).state.sprites]
    ∧ receivedBy (handleSpriteData initialState "A" w8Data) false
      = [(handleSpriteData initialState "A" w8Data).state.sprites] :=
  ⟨(spec_C8 initialState "A" w8Data (by decide)).1 true,
   (spec_C8 initialState "A" w8Data (by decide)).1 false⟩

/-- C10: the two rejection paths differ observably.  An update rejected
because the existing active object has a different owner produces no state
change, no broadcast and no message of any kind; an update that passes the
ownership gate but fails required-field validation leaves the state
unchanged yet still emits the full unchanged active snapshot both to all
other sessions and back to the sender. -/
theorem spec_C10 (st : ServerState) (ident : String) (data : Obj) :
    (∀ ex, aGet st.sprites (dataKey data) = some ex →
        aGet ex "owner" ≠ some (Value.vStr ident) →
        handleSpriteData st ident data = SpriteDataResult.mk st false [])
    ∧ ((∀ ex, aGet st.sprites (dataKey data) = some ex →
          aGet ex "owner" = some (Value.vStr ident)) →
        ¬ requiredTruthy (mergedOf st.sprites ident data) →
        handleSpriteData st ident data
          = SpriteDataResult.mk st false
              [(Aud.others, st.sprites), (Aud.sender, st.sprites)]) := by
  constructor
  · intro ex hget hne
    exact handleSpriteData_denied (updateAllowed_of_other_owner hget hne)
  · intro hall hnr
    exact handleSpriteData_discarded (updateAllowed_of_owner hall)
      (requiredOk_eq_false_of_not hnr)

/-- An update for `exObj`'s id that omits required fields. -/
def w10Bad : Obj := [("id", Value.vStr "w10"), ("x", Value.vNum 1)]

theorem spec_C10_witness :
    handleSpriteData exState "B" sparseData
      = SpriteDataResult.mk exState false []
    ∧ handleSpriteData initialState "A" w10Bad
      = SpriteDataResult.mk initialState false
          [(Aud.others, initialState.sprites),
           (Aud.sender, initialState.sprites)] :=
  ⟨(spec_C10 exState "B" sparseData).1 exObj (by decide) (by decide),
   (spec_C10 initialState "A" w10Bad).2
     (fun ex hex => Option.noConfusion hex) (by decide)⟩

/-- C3 counterexample: the merged object for this update has all four
required fields present and non-null (`x` is the number 0), yet the update
is discarded and no object is created — refuting the claim's "conversely a
merged object with all four fields present and non-null is stored". -/
def zeroData : Obj :=
  [("id", Value.vStr "z"), ("x", Value.vNum 0), ("y", Value.vNum 1),
   ("scene", Value.vStr "s"), ("sprite", Value.vStr "p")]

theorem spec_C3_counterexample :
    (∀ f ∈ (["x", "y", "scene", "sprite"] : List String),
        aGet (mergedOf initialState.sprites "A" zeroData) f ≠ none
        ∧ aGet (mergedOf initialState.sprites "A" zeroData) f
            ≠ some Value.vNull)
    ∧ (handleSpriteData initialState "A" zeroData).stored = false
    ∧ aGet (handleSpriteData initialState "A" zeroData).state.sprites
        (dataKey zeroData) = none := by decide

/-- C3 (amended): for every update that passes the ownership gate, if any
of the four required fields of the merged object is missing or falsy in
the JavaScript sense (null, false, the number 0, or the empty string), the
entire update is discarded — the state is unchanged, so an existing object
keeps its previous state and a brand-new id is never created; conversely a
merged object with all four required fields truthy is stored. -/
theorem spec_C3_amended (st : ServerState) (ident : String) (data : Obj)
    (hgate : ∀ ex, aGet st.sprites (dataKey data) = some ex →
        aGet ex "owner" = some (Value.vStr ident)) :
    (¬ requiredTruthy (mergedOf st.sprites ident data) →
        (handleSpriteData st ident data).state = st)
    ∧ (requiredTruthy (mergedOf st.sprites ident data) →
        (handleSpriteData st ident data).state.sprites
            = aSet st.sprites (dataKey data) (mergedOf st.sprites ident data)
          ∧ (handleSpriteData st ident data).stored = true) := by
  have hU := updateAllowed_of_owner hgate
  constructor
  · intro hnr
    rw [handleSpriteData_discarded hU (requiredOk_eq_false_of_not hnr)]
  · intro hr
    rw [handleSpriteData_stored hU ((requiredOk_iff _).mpr hr)]
    exact ⟨rfl, rfl⟩

/-- An update whose merge is missing `x`. -/
def c3Bad : Obj :=
  [("id", Value.vStr "cb"), ("y", Value.vNum 1),
   ("scene", Value.vStr "s"), ("sprite", Value.vStr "p")]

/-- A complete truthy update for a fresh id. -/
def c3Good : Obj :=
  [("id", Value.vStr "cg"), ("x", Value.vNum 3), ("y", Value.vNum 4),
   ("scene", Value.vStr "s"), ("sprite", Value.vStr "p")]

theorem spec_C3_witness :
    (handleSpriteData initialState "A" c3Bad).state = initialState
    ∧ (handleSpriteData initialState "A" c3Good).state.sprites
        = aSet initialState.sprites (dataKey c3Good)
            (mergedOf initialState.sprites "A" c3Good)
    ∧ (handleSpriteData initialState "A" c3Good).stored = true :=
  ⟨(spec_C3_amended initialState "A" c3Bad
      (fun ex hex => Option.noConfusion hex)).1 (by decide),
   ((spec_C3_amended initialState "A" c3Good
      (fun ex hex => Option.noConfusion hex)).2 (by decide)).1,
   ((spec_C3_amended initialState "A" c3Good
      (fun ex hex => Option.noConfusion hex)).2 (by decide)).2⟩

/-- C4 counterexample: an accepted update from the owner A whose payload
contains `owner:B` is stored, but the stored object's `owner` field does
not carry the incoming value — refuting "it has every field of the
incoming update with the incoming value". -/
theorem spec_C4_counterexample :
    aGet exState.sprites (dataKey spoofData) = some exObj
    ∧ aGet exObj "owner" = some (Value.vStr "A")
    ∧ (handleSpriteData exState "A" spoofData).stored = true
    ∧ aGet spoofData "owner" = some (Value.vStr "B")
    ∧ aGet (handleSpriteData exState "A" spoofData).state.sprites
        (dataKey spoofData) = some (mergedOf exState.sprites "A" spoofData)
    ∧ aGet (mergedOf exState.sprites "A" spoofData) "owner"
        ≠ aGet spoofData "owner" := by decide

/-- C4 (amended): for every accepted update from the owner of an existing
object, the stored result is the forward-merge with the owner forced: its
`owner` field equals the sender's identity, every other field of the
incoming update keeps the incoming value, every field present on the
existing object but absent from the incoming update keeps its prior value,
and no other fields exist. -/
theorem spec_C4_amended (st : ServerState) (ident : String) (data ex : Obj)
    (hget : aGet st.sprites (dataKey data) = some ex)
    (_hown : aGet ex "owner" = some (Value.vStr ident))
    (hst : (handleSpriteData st ident data).stored = true) :
    aGet (handleSpriteData st ident data).state.sprites (dataKey data)
      = some (mergedOf st.sprites ident data)
    ∧ ∀ f : String,
        aGet (mergedOf st.sprites ident data) f
          = if f = "owner" then some (Value.vStr ident)
            else (aGet data f).orElse (fun _ => aGet ex f) := by
  obtain ⟨hU, hR⟩ := stored_imp hst
  constructor
  · rw [handleSpriteData_stored hU hR]
    exact aGet_aSet_self _ _ _
  · intro f
    have hm : mergedOf st.sprites ident data
        = aSet (mergeForward data ex) "owner" (Value.vStr ident) := by
      unfold mergedOf
      rw [hget]
    by_cases hf : f = "owner"
    · rw [if_pos hf, hf]
      exact mergedOf_owner _ _ _
    · rw [if_neg hf, hm, aGet_aSet_ne _ _ _ hf, aGet_mergeForward]

theorem spec_C4_witness :
    aGet (handleSpriteData exState "A" sparseData).state.sprites
        (dataKey sparseData)
      = some (mergedOf exState.sprites "A" sparseData)
    ∧ aGet (mergedOf exState.sprites "A" sparseData) "x"
        = (if ("x" : String) = "owner" then some (Value.vStr "A")
           else (aGet sparseData "x").orElse (fun _ => aGet exObj "x"))
    ∧ aGet (mergedOf exState.sprites "A" sparseData) "hp"
        = (if ("hp" : String) = "owner" then some (Value.vStr "A")
           else (aGet sparseData "hp").orElse (fun _ => aGet exObj "hp")) := by
  have h := spec_C4_amended exState "A" sparseData exObj (by decide)
    (by decide) (by decide)
  exact ⟨h.1, h.2 "x", h.2 "hp"⟩

/-- A's original well-formed update creating sprite "k". -/
def cexDataA : Obj :=
  [("id", Value.vStr "k"), ("x", Value.vNum 1), ("y", Value.vNum 1),
   ("scene", Value.vStr "s"), ("sprite", Value.vStr "p")]

/-- B's later well-formed update for the same id "k". -/
def cexDataB : Obj :=
  [("id", Value.vStr "k"), ("x", Value.vNum 2), ("y", Value.vNum 2),
   ("scene", Value.vStr "s"), ("sprite", Value.vStr "p")]

/-- A reachable state: A connected, created sprite "k", disconnected
(archiving it), then B connected. -/
def cexState : ServerState :=
  runOps initialState
    [Op.connect "A", Op.spriteData "A" cexDataA,
     Op.disconnect "A", Op.connect "B"]

/-- The sprite "k" as archived: A's update with `owner:"A"` appended. -/
def cexArchived : Obj :=
  [("id", Value.vStr "k"), ("x", Value.vNum 1), ("y", Value.vNum 1),
   ("scene", Value.vStr "s"), ("sprite", Value.vStr "p"),
   ("owner", Value.vStr "A")]

/-- C1 counterexample: object "k" is owned by A and sits in the archived
partition; B (≠ A) submits a well-formed update for "k", and instead of
being rejected it is accepted and creates a new active object — the
ownership gate consults only the active map. -/
theorem spec_C1_counterexample :
    ("A" : String) ≠ "B"
    ∧ aGet cexState.inactiveSprites (skey "k") = some cexArchived
    ∧ aGet cexArchived "owner" = some (Value.vStr "A")
    ∧ wellFormed cexDataB
    ∧ dataKey cexDataB = skey "k"
    ∧ (handleSpriteData cexState "B" cexDataB).stored = true
    ∧ aGet (handleSpriteData cexState "B" cexDataB).state.sprites (skey "k")
        = some (mergedOf cexState.sprites "B" cexDataB) := by decide

/-- C1 (amended): for all identities A ≠ B and every object O owned by A
that is in the ACTIVE partition, a well-formed update for O's id submitted
by session B is rejected: the whole state (both partitions) is unchanged,
nothing is stored, and nothing is emitted. -/
theorem spec_C1_amended (st : ServerState) (A B : String) (data O : Obj)
    (hAB : A ≠ B) (_hwf : wellFormed data)
    (hget : aGet st.sprites (dataKey data) = some O)
    (hown : aGet O "owner" = some (Value.vStr A)) :
    handleSpriteData st B data = SpriteDataResult.mk st false [] := by
  apply handleSpriteData_denied
  apply updateAllowed_of_other_owner hget
  rw [hown]
  simp [hAB]

/-- B's well-formed update for A's active object `exObj`. -/
def w1Data : Obj :=
  [("id", Value.vNum 1), ("x", Value.vNum 9), ("y", Value.vNum 9),
   ("scene", Value.vStr "S"), ("sprite", Value.vStr "P")]

theorem spec_C1_witness :
    handleSpriteData exState "B" w1Data = SpriteDataResult.mk exState false [] :=
  spec_C1_amended exState "A" "B" w1Data exObj (by decide) (by decide)
    (by decide) (by decide)

/-- The duplicated-id state: after C1's counterexample trace, B's accepted
update for the archived id "k" has created an active object under "k"
while A's archived object still sits under "k". -/
def cexState5 : ServerState :=
  runOps initialState
    [Op.connect "A", Op.spriteData "A" cexDataA, Op.disconnect "A",
     Op.connect "B", Op.spriteData "B" cexDataB]

/-- C5 counterexample: a reachable state in which the id "k" is present in
the active AND the archived partition simultaneously. -/
theorem spec_C5_counterexample :
    (aGet cexState5.sprites (skey "k")).isSome = true
    ∧ (aGet cexState5.inactiveSprites (skey "k")).isSome = true := by decide

/-- Side condition under which a single event preserves
partition-disjointness: a connect must not find an archived object keyed
by the connecting identity but owned by someone else (the default-sprite
creation would duplicate that id), and a stored update must not target an
id currently present in the archived partition (the ownership gate
consults only the active map). -/
def opOk (st : ServerState) : Op → Bool
  | Op.connect u =>
      st.inactiveSprites.all
        (fun kv => if kv.1 = skey u then ownerIs kv.2 u else true)
  | Op.spriteData ident data =>
      if (handleSpriteData st ident data).stored
      then (aGet st.inactiveSprites (dataKey data)).isNone
      else true
  | Op.disconnect _ => true

/-- C5 (amended): partition-disjointness is not invariant under all
reachable behaviour (see the counterexample), but it IS preserved by every
connect, disconnect, and object-update event satisfying the side
condition `opOk`: from a state with duplicate-free key lists in which no
id is in both partitions, the event yields a state in which no id is in
both partitions. -/
theorem spec_C5_amended (st : ServerState) (op : Op)
    (h1 : nodupKeys st.sprites) (h2 : nodupKeys st.inactiveSprites)
    (h3 : DisjointParts st) (h4 : opOk st op = true) :
    DisjointParts (applyOp st op) := by
  have key_disj : ∀ (k : Key) (o : Obj),
      aGet st.sprites k = some o → aGet st.inactiveSprites k = none :=
    fun k o hk => h3 (k, o) (mem_of_aGet_eq_some hk)
  cases op with
  | connect u =>
      have hall : ∀ kv ∈ st.inactiveSprites,
          kv.1 = skey u → ownerIs kv.2 u = true := by
        intro kv hkv hk
        have hx := List.all_eq_true.mp h4 kv hkv
        rw [if_pos hk] at hx
        exact hx
      intro kv hkv
      have hsome : (aGet (ensureDefault
          (aSetAll st.sprites
            (st.inactiveSprites.filter (fun kv2 => ownerIs kv2.2 u))) u)
          kv.1).isSome = true := aGet_isSome_of_mem hkv
      show aGet (st.inactiveSprites.filter (fun kv2 => !(ownerIs kv2.2 u)))
          kv.1 = none
      have hbase : (aGet (aSetAll st.sprites
            (st.inactiveSprites.filter (fun kv2 => ownerIs kv2.2 u)))
            kv.1).isSome = true →
          aGet (st.inactiveSprites.filter (fun kv2 => !(ownerIs kv2.2 u)))
            kv.1 = none := by
        intro hb
        rcases aGet_aSetAll_isSome hb with ha | hm
        · rcases Option.isSome_iff_exists.mp ha with ⟨o, ho⟩
          exact aGet_filter_eq_none_of_none (key_disj _ _ ho)
        · rcases List.mem_map.mp hm with ⟨kv2, hkv2, hfst⟩
          have hmf := List.mem_filter.mp hkv2
          have hgi : aGet st.inactiveSprites kv.1 = some kv2.2 := by
            apply aGet_of_mem_nodup h2
            rw [← hfst]
            exact hmf.1
          rw [aGet_filter_of_some h2 hgi]
          simp [hmf.2]
      unfold ensureDefault at hsome
      by_cases hd : aGet (aSetAll st.sprites
          (st.inactiveSprites.filter (fun kv2 => ownerIs kv2.2 u))) (skey u)
          = none
      · rw [if_pos hd] at hsome
        rcases aGet_aSet_isSome hsome with hk | hb
        · apply aGet_filter_eq_none
          intro v hv
          have ho := hall (kv.1, v) hv hk
          simp [ho]
        · exact hbase hb
      · rw [if_neg hd] at hsome
        exact hbase hsome
  | spriteData i d =>
      by_cases hU : updateAllowed st.sprites i d = true
      · by_cases hR : requiredOk (mergedOf st.sprites i d) = true
        · have hres := handleSpriteData_stored hU hR
          have hstored : (handleSpriteData st i d).stored = true := by
            rw [hres]
          have hnone : aGet st.inactiveSprites (dataKey d) = none := by
            have h5 : (if (handleSpriteData st i d).stored = true
                then (aGet st.inactiveSprites (dataKey d)).isNone
                else true) = true := h4
            rw [hstored] at h5
            simpa using h5
          intro kv hkv
          have hkv2 : kv ∈ aSet st.sprites (dataKey d)
              (mergedOf st.sprites i d) := by
            have hsp : (applyOp st (Op.spriteData i d)).sprites
                = aSet st.sprites (dataKey d) (mergedOf st.sprites i d) := by
              show (handleSpriteData st i d).state.sprites = _
              rw [hres]
            rwa [hsp] at hkv
          have hgoal : (applyOp st (Op.spriteData i d)).inactiveSprites
              = st.inactiveSprites := by
            show (handleSpriteData st i d).state.inactiveSprites = _
            rw [hres]
          rw [hgoal]
          have hsome := aGet_isSome_of_mem hkv2
          rcases aGet_aSet_isSome hsome with hk | ha
          · rw [hk]
            exact hnone
          · rcases Option.isSome_iff_exists.mp ha with ⟨o, ho⟩
            exact key_disj _ _ ho
        · have hres := handleSpriteData_discarded hU (by simpa using hR)
          have hgoal : applyOp st (Op.spriteData i d) = st := by
            show (handleSpriteData st i d).state = st
            rw [hres]
          rw [hgoal]
          exact h3
      · have hres := handleSpriteData_denied (by simpa using hU)
        have hgoal : applyOp st (Op.spriteData i d) = st := by
          show (handleSpriteData st i d).state = st
          rw [hres]
        rw [hgoal]
        exact h3
  | disconnect u =>
      intro kv hkv
      have hkv2 : kv ∈ st.sprites.filter (fun kv2 => !(ownerIs kv2.2 u)) := hkv
      have hsome := aGet_isSome_of_mem hkv2
      rcases exists_mem_of_aGet_filter_isSome hsome with ⟨v, hvmem, hvp⟩
      have hget2 : aGet st.sprites kv.1 = some v := aGet_of_mem_nodup h1 hvmem
      have hnone := key_disj _ _ hget2
      have hnm : kv.1 ∉
          (st.sprites.filter (fun kv2 => ownerIs kv2.2 u)).map Prod.fst := by
        intro hm
        rcases List.mem_map.mp hm with ⟨kv2, hkv3, hfst⟩
        have hmf := List.mem_filter.mp hkv3
        have hg2 : aGet st.sprites kv.1 = some kv2.2 := by
          apply aGet_of_mem_nodup h1
          rw [← hfst]
          exact hmf.1
        have hv2 : v = kv2.2 := by
          rw [hget2] at hg2
          exact Option.some_inj.mp hg2
        have howner : ownerIs v u = true := by
          rw [hv2]
          exact hmf.2
        have hvp2 : ownerIs v u = false := by
          simpa using hvp
        rw [howner] at hvp2
        cases hvp2
      show aGet (aSetAll st.inactiveSprites
          (st.sprites.filter (fun kv2 => ownerIs kv2.2 u))) kv.1 = none
      rw [aGet_aSetAll_of_not_mem_keys hnm]
      exact hnone

/-- A disjoint two-partition state with an unrelated archived sprite. -/
def w5State : ServerState :=
  ServerState.mk [(skey "A", defaultSprite "A")]
    [(skey "Q", defaultSprite "Q")]

/-- A's well-formed update for a fresh id "n" not present anywhere. -/
def w5Data : Obj :=
  [("id", Value.vStr "n"), ("x", Value.vNum 1), ("y", Value.vNum 1),
   ("scene", Value.vStr "s"), ("sprite", Value.vStr "p")]

theorem spec_C5_witness :
    nodupKeys w5State.sprites
    ∧ nodupKeys w5State.inactiveSprites
    ∧ DisjointParts w5State
    ∧ opOk w5State (Op.spriteData "A" w5Data) = true
    ∧ DisjointParts (applyOp w5State (Op.spriteData "A" w5Data)) :=
  ⟨by decide, by decide, by decide, by decide,
   spec_C5_amended w5State (Op.spriteData "A" w5Data) (by decide) (by decide)
     (by decide) (by decide)⟩

/-- C6: archive/resurrect round-trip.  For every object O owned by A in
the active partition: after A's disconnect, O is gone from the active map
(and hence from the broadcast snapshot, which serializes only the active
partition) and sits in the archived map unchanged; after A reconnects, O
is back in the active partition with all of its fields unchanged and has
left the archived partition. -/
theorem spec_C6 (st : ServerState) (A : String) (k : Key) (O : Obj)
    (h1 : nodupKeys st.sprites) (h2 : nodupKeys st.inactiveSprites)
    (hget : aGet st.sprites k = some O)
    (hown : aGet O "owner" = some (Value.vStr A)) :
    aGet (snapshot (applyOp st (Op.disconnect A))) k = none
    ∧ aGet (applyOp st (Op.disconnect A)).inactiveSprites k = some O
    ∧ aGet (applyOp (applyOp st (Op.disconnect A)) (Op.connect A)).sprites k
        = some O
    ∧ aGet
        (applyOp (applyOp st (Op.disconnect A)) (Op.connect A)).inactiveSprites
        k = none := by
  have hOwn : ownerIs O A = true := by
    unfold ownerIs
    simpa using hown
  have p1 : aGet (snapshot (applyOp st (Op.disconnect A))) k = none := by
    show aGet (st.sprites.filter (fun kv => !(ownerIs kv.2 A))) k = none
    rw [aGet_filter_of_some h1 hget]
    simp [hOwn]
  have p2 : aGet (applyOp st (Op.disconnect A)).inactiveSprites k = some O := by
    show aGet (aSetAll st.inactiveSprites
        (st.sprites.filter (fun kv => ownerIs kv.2 A))) k = some O
    exact aGet_aSetAll_of_mem (nodupKeys_filter h1)
      (List.mem_filter.mpr ⟨mem_of_aGet_eq_some hget, hOwn⟩) st.inactiveSprites
  have hnd1i : nodupKeys (applyOp st (Op.disconnect A)).inactiveSprites := by
    show nodupKeys (aSetAll st.inactiveSprites
        (st.sprites.filter (fun kv => ownerIs kv.2 A)))
    exact nodupKeys_aSetAll h2
  have hbase : aGet (aSetAll (applyOp st (Op.disconnect A)).sprites
      ((applyOp st (Op.disconnect A)).inactiveSprites.filter
        (fun kv => ownerIs kv.2 A))) k = some O :=
    aGet_aSetAll_of_mem (nodupKeys_filter hnd1i)
      (List.mem_filter.mpr ⟨mem_of_aGet_eq_some p2, hOwn⟩) _
  have p3 : aGet
      (applyOp (applyOp st (Op.disconnect A)) (Op.connect A)).sprites k
      = some O := by
    show aGet (ensureDefault (aSetAll (applyOp st (Op.disconnect A)).sprites
        ((applyOp st (Op.disconnect A)).inactiveSprites.filter
          (fun kv => ownerIs kv.2 A))) A) k = some O
    unfold ensureDefault
    by_cases hd : aGet (aSetAll (applyOp st (Op.disconnect A)).sprites
        ((applyOp st (Op.disconnect A)).inactiveSprites.filter
          (fun kv => ownerIs kv.2 A))) (skey A) = none
    · rw [if_pos hd]
      have hk : k ≠ skey A := by
        intro hh
        rw [hh] at hbase
        rw [hbase] at hd
        cases hd
      rw [aGet_aSet_ne _ _ _ hk]
      exact hbase
    · rw [if_neg hd]
      exact hbase
  have p4 : aGet
      (applyOp (applyOp st (Op.disconnect A)) (Op.connect A)).inactiveSprites
      k = none := by
    show aGet ((applyOp st (Op.disconnect A)).inactiveSprites.filter
        (fun kv => !(ownerIs kv.2 A))) k = none
    rw [aGet_filter_of_some hnd1i p2]
    simp [hOwn]
  exact ⟨p1, p2, p3, p4⟩

/-- An active sprite "o6" owned by A, next to A's player sprite. -/
def w6Obj : Obj :=
  [("id", Value.vStr "o6"), ("owner", Value.vStr "A"),
   ("x", Value.vNum 7), ("y", Value.vNum 8),
   ("scene", Value.vStr "S"), ("sprite", Value.vStr "P")]

def w6State : ServerState :=
  ServerState.mk
    [(skey "A", defaultSprite "A"), (some (Value.vStr "o6"), w6Obj)] []

theorem spec_C6_witness :
    aGet (snapshot (applyOp w6State (Op.disconnect "A")))
        (some (Value.vStr "o6")) = none
    ∧ aGet (applyOp w6State (Op.disconnect "A")).inactiveSprites
        (some (Value.vStr "o6")) = some w6Obj
    ∧ aGet (applyOp (applyOp w6State (Op.disconnect "A"))
          (Op.connect "A")).sprites (some (Value.vStr "o6")) = some w6Obj
    ∧ aGet (applyOp (applyOp w6State (Op.disconnect "A"))
          (Op.connect "A")).inactiveSprites (some (Value.vStr "o6")) = none :=
  spec_C6 w6State "A" (some (Value.vStr "o6")) w6Obj (by decide) (by decide)
    (by decide) (by decide)

end WorldServer
